import Mathlib

/-!
Shallow embedding of the discovery subsystem of `src/discover.rs`
(crate `yamaha_rs`).

Rust strings are modelled as `List Char` (`RStr`); a datagram or HTTP
payload read through `String::from_utf8_lossy` is likewise a `List Char`.
The network is modelled as an explicit environment (`ProbeEnv` for the
UDP probe socket, `NetEnv` for the TCP description fetch); a Rust panic
(`.unwrap()` on an `Err`) is modelled as `Except.error`.
-/

abbrev RStr := List Char

/-- Convert a Lean string literal to the `List Char` model. -/
def str (s : String) : RStr := s.data

/-- `u8::to_ascii_lowercase` / `char::to_ascii_lowercase`: maps only the
ASCII range `A`-`Z` to `a`-`z`. -/
def toLowerAscii (c : Char) : Char :=
  if 65 ≤ c.toNat ∧ c.toNat ≤ 90 then Char.ofNat (c.toNat + 32) else c

/-- `str::to_ascii_lowercase`. -/
def lowerStr (s : RStr) : RStr := s.map toLowerAscii

/-- `char::is_whitespace`: the Unicode `White_Space` property. -/
def isRustWhitespace (c : Char) : Bool :=
  let n := c.toNat
  n == 9 || n == 10 || n == 11 || n == 12 || n == 13 || n == 32 ||
  n == 133 || n == 160 || n == 5760 || (Nat.ble 8192 n && Nat.ble n 8202) ||
  n == 8232 || n == 8233 || n == 8239 || n == 8287 || n == 12288

/-- `str::trim`: strip leading and trailing Unicode whitespace. -/
def rustTrim (s : RStr) : RStr :=
  ((s.dropWhile isRustWhitespace).reverse.dropWhile isRustWhitespace).reverse

/-- `str::split_once(c)`: split at the first occurrence of the character
`c`, returning the parts before and after it. -/
def splitOnceChar (s : RStr) (c : Char) : Option (RStr × RStr) :=
  match s with
  | [] => none
  | x :: rest =>
    if x = c then some ([], rest)
    else (splitOnceChar rest c).map (fun p => (x :: p.1, p.2))

/-- `str::find(pat)` for a literal pattern: index of the first occurrence
of `pat` in `s` (`some 0` for the empty pattern, as in Rust). -/
def findSub (s pat : RStr) : Option Nat :=
  if pat.isPrefixOf s then some 0
  else
    match s with
    | [] => none
    | _ :: rest => (findSub rest pat).map (fun n => n + 1)

/-- Worker of `splitOnL`.  `acc` holds the current fragment in reverse;
`skip > 0` means that many further characters belong to a separator
occurrence already recognised and are consumed without inspection. -/
def splitGo (sep : RStr) (skip : Nat) (acc : RStr) : RStr → List RStr
  | [] => [acc.reverse]
  | c :: rest =>
    match skip with
    | k + 1 => splitGo sep k acc rest
    | 0 =>
      if sep.isPrefixOf (c :: rest) then
        acc.reverse :: splitGo sep (sep.length - 1) [] rest
      else splitGo sep 0 (c :: acc) rest

/-- `str::split(pat)` for a nonempty literal pattern: the list of the
(possibly empty) fragments between the non-overlapping left-to-right
occurrences of `pat`. -/
def splitOnL (sep s : RStr) : List RStr := splitGo sep 0 [] s

/-- `str::split_once(pat)` for a literal pattern, via the first
occurrence: the parts strictly before and strictly after it. -/
def splitOnceSub (s pat : RStr) : Option (RStr × RStr) :=
  (findSub s pat).map (fun i => (s.take i, s.drop (i + pat.length)))

/-- Worker of `rustLines`: `acc` holds the current line's characters in
reverse.  At a `\n` the line is emitted with a single trailing `\r`
stripped; at the end of input a nonempty unterminated last line is
emitted as-is (its `\r`, if any, is kept, as `str::lines` does). -/
def linesAux (acc : RStr) : RStr → List RStr
  | [] => if acc.isEmpty then [] else [acc.reverse]
  | c :: rest =>
    if c = '\n' then
      (match acc with
       | '\r' :: a => a.reverse
       | _ => acc.reverse) :: linesAux [] rest
    else linesAux (c :: acc) rest

/-- `str::lines`: split at `\n`, stripping a `\r` that directly precedes
a `\n`; a final line ending is optional and produces no empty last
line. -/
def rustLines (s : RStr) : List RStr := linesAux [] s

/-! ## The Response Parser (`extract_header`, `extract_xml`,
`extract_host_port`, `extract_path` of `src/discover.rs`) -/

/-- The loop body of `extract_header`: scan the lines in order; a line is
taken when its trimmed form, lowercased, starts with the (lowercased)
header name and it contains a colon; the value is everything after the
first colon, trimmed. -/
def extractHeaderGo (h : RStr) : List RStr → Option RStr
  | [] => none
  | line :: rest =>
    let l := rustTrim line
    if h.isPrefixOf (lowerStr l) then
      match splitOnceChar l ':' with
      | some v => some (rustTrim v.2)
      | none => extractHeaderGo h rest
    else extractHeaderGo h rest

/-- `extract_header(resp, header)` of `src/discover.rs:128-139`. -/
def extract_header (resp header : RStr) : Option RStr :=
  extractHeaderGo (lowerStr header) (rustLines resp)

/-- `extract_xml(xml, tag)` of `src/discover.rs:170-178`: locate the
literal `<tag>`, then the literal `</tag>` after it, and return the
trimmed text in between. -/
def extract_xml (xml tag : RStr) : Option RStr :=
  let op := '<' :: tag ++ ['>']
  let cl := '<' :: '/' :: tag ++ ['>']
  match findSub xml op with
  | none => none
  | some i =>
    let start := i + op.length
    match findSub (xml.drop start) cl with
    | none => none
    | some j => some (rustTrim ((xml.drop start).take j))

/-- `extract_host_port(url)` of `src/discover.rs:180-183`:
`url.split("://").nth(1)` then `.split('/').next()`. -/
def extract_host_port (url : RStr) : Option RStr :=
  match splitOnL (str "://") url with
  | _ :: noProto :: _ => (splitOnL (str "/") noProto).head?
  | _ => none

/-- `extract_path(url)` of `src/discover.rs:185-194`:
`url.split("://").nth(1)` then `split_once('/')`, prefixing the tail
with `/`, defaulting to `/`. -/
def extract_path (url : RStr) : Option RStr :=
  match splitOnL (str "://") url with
  | _ :: noProto :: _ =>
    some (match splitOnceChar noProto '/' with
          | some p => '/' :: p.2
          | none => str "/")
  | _ => none

/-! ## Data model

`IpAddr` is an abstract address identifier (the code only ever compares
addresses for equality and stores them). -/

abbrev IpAddr := Nat

/-- `YamahaDevice` of `src/structs.rs:104-107`. -/
structure YamahaDevice where
  ip : IpAddr
  name : RStr
deriving DecidableEq, Repr

/-- Environment of one `discover_candidates_from_iface_addr` call: whether
`UdpSocket::bind` succeeds, whether `send_to` succeeds, and the sequence
of datagrams `(source address, payload)` successfully received by
`recv_from` during the 3-second window (a `recv_from` timeout or error is
silently skipped by the loop, so only successful receptions appear). -/
structure ProbeEnv where
  bindOk : Bool
  sendOk : Bool
  datagrams : List (IpAddr × RStr)
deriving Repr

/-- Environment of the TCP description fetches, keyed by the `host:port`
string parsed out of a LOCATION URL:
* `parseOk addr` — whether `addr.parse::<SocketAddr>()` succeeds;
* `connectOk addr` — whether `TcpStream::connect_timeout` succeeds;
* `writeOk addr` — whether `write_all` of the GET request succeeds;
* `readData addr path` — `some payload` when `read_to_end` succeeds with
  that payload (after `from_utf8_lossy`), `none` when it fails.
(`set_read_timeout`/`set_write_timeout` only fail on a zero duration;
the code passes nonzero constants, so they are modelled infallible.) -/
structure NetEnv where
  parseOk : RStr → Bool
  connectOk : RStr → Bool
  writeOk : RStr → Bool
  readData : RStr → RStr → Option RStr

/-! ## The Interface-Scoped Prober
(`discover_candidates_from_iface_addr` of `src/discover.rs:92-126`) -/

/-- The receive loop of `src/discover.rs:108-123`: `seen` is the
`HashSet` of source IPs already recorded, `cands` the accumulated
candidate vector.  A datagram from a seen source is skipped; a datagram
whose payload has no LOCATION header is skipped (and its source is not
marked seen); otherwise the source is marked and `(ip, location)`
pushed. -/
def probeGo : List (IpAddr × RStr) → List IpAddr → List (IpAddr × RStr) →
    List (IpAddr × RStr)
  | [], _, cands => cands
  | (ip, payload) :: rest, seen, cands =>
    if ip ∈ seen then probeGo rest seen cands
    else
      match extract_header payload (str "LOCATION") with
      | some loc => probeGo rest (ip :: seen) (cands ++ [(ip, loc)])
      | none => probeGo rest seen cands

/-- `discover_candidates_from_iface_addr` of `src/discover.rs:92-126`.
The `.unwrap()` calls on `UdpSocket::bind` (line 93) and `send_to`
(line 100) panic on failure; a panic is modelled as `Except.error`. -/
def discover_candidates_from_iface_addr (env : ProbeEnv) :
    Except String (List (IpAddr × RStr)) :=
  if !env.bindOk then .error "bind"
  else if !env.sendOk then .error "send"
  else .ok (probeGo env.datagrams [] [])

/-! ## The Device Identity Resolver
(`extract_device_info` of `src/discover.rs:141-168`) -/

/-- Outcome of one `extract_device_info` call, together with whether the
call reached `TcpStream::connect_timeout` (i.e. attempted a TCP
connection) — the flag is instrumentation for reasoning and does not
alter the computed result. -/
structure ResolveOutcome where
  result : Option (RStr × RStr)
  connectAttempted : Bool
deriving DecidableEq, Repr

/-- `extract_device_info(location)` of `src/discover.rs:141-168`, step by
step in source order: `extract_host_port(location)?`; `addr.parse().ok()?`;
`TcpStream::connect_timeout(..).ok()?`; the path
(`extract_path(location).unwrap_or("/")`); `write_all(..).ok()?`;
`read_to_end(..).ok()?`; `extract_xml(.., "friendlyName")?`;
`extract_xml(.., "manufacturer")?`.  The whole fetched payload is handed
to `extract_xml`. -/
def extract_device_info_t (env : NetEnv) (location : RStr) : ResolveOutcome :=
  match extract_host_port location with
  | none => ⟨none, false⟩
  | some addr =>
    if env.parseOk addr then
      if env.connectOk addr then
        let path := (extract_path location).getD (str "/")
        if env.writeOk addr then
          match env.readData addr path with
          | none => ⟨none, true⟩
          | some data =>
            match extract_xml data (str "friendlyName") with
            | none => ⟨none, true⟩
            | some friendly =>
              match extract_xml data (str "manufacturer") with
              | none => ⟨none, true⟩
              | some manu => ⟨some (friendly, manu), true⟩
        else ⟨none, true⟩
      else ⟨none, true⟩
    else ⟨none, false⟩

/-- The value `extract_device_info` returns to its caller. -/
def extract_device_info (env : NetEnv) (location : RStr) :
    Option (RStr × RStr) :=
  (extract_device_info_t env location).result

/-! ## The Discovery Coordinator
(`discover_yamaha_devices` of `src/discover.rs:10-90`) -/

/-- Body of one resolve worker (`src/discover.rs:74-81`): resolve the
candidate's LOCATION URL and push a `YamahaDevice` only when resolution
succeeded and the manufacturer equals `"Yamaha Corporation"` exactly. -/
def resolveCandidate (env : NetEnv) (c : IpAddr × RStr) : Option YamahaDevice :=
  match extract_device_info env c.2 with
  | some fm => if fm.2 = str "Yamaha Corporation" then some ⟨c.1, fm.1⟩ else none
  | none => none

/-- The probe phase of `src/discover.rs:43-55`: one prober per interface
binding; each thread extends the shared candidate vector with its own
list, and `handle.join().unwrap()` (line 53) re-raises a prober panic in
the coordinator.  Threads are joined in spawn order; the concatenation
order models one admissible schedule (membership and multiplicity of the
merged vector are schedule-independent, its order is not). -/
def runProbers : List ProbeEnv → Except String (List (IpAddr × RStr))
  | [] => .ok []
  | e :: rest =>
    match discover_candidates_from_iface_addr e with
    | .error s => .error s
    | .ok cs => (runProbers rest).map (fun others => cs ++ others)

/-- `discover_yamaha_devices` of `src/discover.rs:10-90`, parameterised
by one `ProbeEnv` per interface binding (a single-element list models the
non-Windows single-`0.0.0.0` path, where a prober panic propagates
directly instead of through `join().unwrap()` — fatal either way) and by
the TCP environment.  The resolve phase (lines 69-89) runs one worker
per candidate, each pushing to the shared result vector; the pushes are
modelled in candidate order (one admissible schedule).  No
deduplication is applied to the merged candidate list. -/
def discover_yamaha_devices (envs : List ProbeEnv) (net : NetEnv) :
    Except String (List YamahaDevice) :=
  (runProbers envs).map (fun candidates => candidates.filterMap (resolveCandidate net))

/-! ## Reference (specification-side) functions -/

/-- The location recorded for `ip` by the specification reading of the
probe loop: the LOCATION header of the first datagram from `ip` that
carries one. -/
def firstLoc : List (IpAddr × RStr) → IpAddr → Option RStr
  | [], _ => none
  | (i, p) :: rest, ip =>
    if i = ip then
      match extract_header p (str "LOCATION") with
      | some l => some l
      | none => firstLoc rest ip
    else firstLoc rest ip

/-- `splitLocationURL` exactly as the spec words it (§4.1): split the URL
on the FIRST `://`, then split the remainder on its first `/`; host:port
is everything before that `/`, path is `/` plus everything after it (or
bare `/` if nothing followed). -/
def splitLocationURL_spec (url : RStr) : Option (RStr × RStr) :=
  match splitOnceSub url (str "://") with
  | none => none
  | some pr =>
    match splitOnceChar pr.2 '/' with
    | none => some (pr.2, str "/")
    | some ht => some (ht.1, '/' :: ht.2)

/-- The response body as the spec words it (§4.3 step 4): everything
after the first blank line (CRLF CRLF) following the headers; if absent,
the whole payload. -/
def bodyText_spec (payload : RStr) : RStr :=
  match splitOnceSub payload (str "\x0d\n\x0d\n") with
  | some hb => hb.2
  | none => payload

/-- The line predicate actually applied by `extract_header`'s loop: the
trimmed line, lowercased, starts with the (already lowercased) header
name, and the trimmed line contains a colon. -/
def headerLineMatch (h line : RStr) : Bool :=
  h.isPrefixOf (lowerStr (rustTrim line)) && (splitOnceChar (rustTrim line) ':').isSome

/-! ## Concrete environments used by counterexamples and witnesses -/

/-- A description document of a Yamaha device. -/
def xmlYamaha : RStr :=
  str "<friendlyName>Receiver-A</friendlyName><manufacturer>Yamaha Corporation</manufacturer>"

/-- A description document of a foreign device with a well-formed name. -/
def xmlOther : RStr :=
  str "<friendlyName>WellFormedName</friendlyName><manufacturer>Other Corp</manufacturer>"

/-- An HTTP payload whose `friendlyName` tag occurs only in the header
section (before the first blank line); the body after the blank line
contains only the `manufacturer` tag. -/
def payloadHeaderTag : RStr :=
  str "HTTP/1.1 200 OK\r\nX-Note: <friendlyName>HeaderName</friendlyName>\r\n\r\n<manufacturer>Yamaha Corporation</manufacturer>"

/-- A fully healthy network serving `xmlYamaha` everywhere. -/
def netW : NetEnv := ⟨fun _ => true, fun _ => true, fun _ => true, fun _ _ => some xmlYamaha⟩

/-- A healthy network serving `xmlOther` everywhere. -/
def netOther : NetEnv := ⟨fun _ => true, fun _ => true, fun _ => true, fun _ _ => some xmlOther⟩

/-- A healthy network serving `payloadHeaderTag` everywhere. -/
def netHeaderTag : NetEnv :=
  ⟨fun _ => true, fun _ => true, fun _ => true, fun _ _ => some payloadHeaderTag⟩

/-- A network where host `closed` refuses TCP connections and every other
host serves `xmlYamaha`. -/
def netMixed : NetEnv :=
  ⟨fun _ => true, fun a => !(a == str "closed"), fun _ => true, fun _ _ => some xmlYamaha⟩

/-- A prober whose socket operations succeed and that receives one
datagram carrying a LOCATION header. -/
def probeEnvGood : ProbeEnv := ⟨true, true, [(1, str "LOCATION: http://dev/d.xml")]⟩

/-- A prober whose `UdpSocket::bind` fails. -/
def probeEnvBadBind : ProbeEnv := ⟨false, true, [(1, str "LOCATION: http://dev/d.xml")]⟩

/-- A prober receiving two datagrams from the same source and one
datagram with no LOCATION header. -/
def probeEnvDupDatagrams : ProbeEnv :=
  ⟨true, true, [(1, str "LOCATION: http://a/x"), (1, str "LOCATION: http://b/y"),
                (2, str "no location here")]⟩

/-! ## Lemmas about the string primitives -/

theorem splitGo_skip (sep : RStr) (t : RStr) :
    ∀ (k : Nat) (acc : RStr), splitGo sep k acc t = splitGo sep 0 acc (t.drop k) := by
  induction t with
  | nil => intro k acc; cases k <;> rfl
  | cons c rest ih =>
    intro k acc
    cases k with
    | zero => rfl
    | succ k => simpa [splitGo] using ih k acc

theorem splitGo_of_findSub_none (sep : RStr) :
    ∀ (s acc : RStr), findSub s sep = none →
      splitGo sep 0 acc s = [acc.reverse ++ s] := by
  intro s
  induction s with
  | nil =>
    intro acc h
    simp [splitGo]
  | cons c rest ih =>
    intro acc h
    by_cases hp : sep.isPrefixOf (c :: rest)
    · rw [findSub] at h
      simp [hp] at h
    · have hrest : findSub rest sep = none := by
        rw [findSub] at h
        cases hfr : findSub rest sep with
        | none => rfl
        | some j => simp [hp, hfr] at h
      have := ih (c :: acc) hrest
      simp only [splitGo, hp, Bool.false_eq_true, if_false]
      rw [this]
      simp

theorem splitGo_of_findSub_some (sep : RStr) (hsep : sep ≠ []) :
    ∀ (s : RStr) (i : Nat) (acc : RStr), findSub s sep = some i →
      splitGo sep 0 acc s =
        (acc.reverse ++ s.take i) :: splitOnL sep (s.drop (i + sep.length)) := by
  intro s
  induction s with
  | nil =>
    intro i acc h
    rw [findSub] at h
    have : ¬ sep.isPrefixOf [] := by
      cases sep with
      | nil => exact absurd rfl hsep
      | cons a as => simp [List.isPrefixOf]
    simp [this] at h
  | cons c rest ih =>
    intro i acc h
    obtain ⟨m, hm⟩ : ∃ m, sep.length = m + 1 := by
      cases sep with
      | nil => exact absurd rfl hsep
      | cons a as => exact ⟨as.length, rfl⟩
    by_cases hp : sep.isPrefixOf (c :: rest)
    · have hi : i = 0 := by
        rw [findSub] at h
        simp [hp] at h
        omega
      subst hi
      simp only [splitGo, hp, if_true]
      rw [splitGo_skip]
      simp [splitOnL, hm, List.take_zero, Nat.zero_add]
    · obtain ⟨j, hj, hji⟩ : ∃ j, findSub rest sep = some j ∧ i = j + 1 := by
        rw [findSub] at h
        cases hfr : findSub rest sep with
        | none => simp [hp, hfr] at h
        | some j =>
          refine ⟨j, rfl, ?_⟩
          simp [hp, hfr] at h
          omega
      subst hji
      have := ih j (c :: acc) hj
      simp only [splitGo, hp, Bool.false_eq_true, if_false]
      rw [this]
      have hdrop : (c :: rest).drop (j + 1 + sep.length) = rest.drop (j + sep.length) := by
        rw [Nat.add_right_comm]
        exact List.drop_succ_cons
      rw [hdrop]
      simp [List.take_succ_cons]

theorem splitOnL_of_none (sep s : RStr) (h : findSub s sep = none) :
    splitOnL sep s = [s] := by
  unfold splitOnL
  rw [splitGo_of_findSub_none sep s [] h]
  simp

theorem splitOnL_of_some (sep s : RStr) (i : Nat) (hsep : sep ≠ [])
    (h : findSub s sep = some i) :
    splitOnL sep s = s.take i :: splitOnL sep (s.drop (i + sep.length)) := by
  conv_lhs => rw [splitOnL]
  rw [splitGo_of_findSub_some sep hsep s i [] h]
  simp

theorem splitGo_singleton (c : Char) :
    ∀ (s acc : RStr), splitGo [c] 0 acc s =
      (match splitOnceChar s c with
       | none => [acc.reverse ++ s]
       | some p => (acc.reverse ++ p.1) :: splitOnL [c] p.2) := by
  intro s
  induction s with
  | nil => intro acc; simp [splitGo, splitOnceChar]
  | cons x rest ih =>
    intro acc
    by_cases hx : x = c
    · subst hx
      have hp : ([x] : RStr).isPrefixOf (x :: rest) = true := by
        simp [List.isPrefixOf]
      simp [splitGo, hp, splitOnceChar, splitOnL]
    · have hp : ([c] : RStr).isPrefixOf (x :: rest) = false := by
        simp [List.isPrefixOf]
        exact fun hxc => absurd hxc.symm hx
      simp only [splitGo, hp, Bool.false_eq_true, if_false]
      rw [ih (x :: acc)]
      cases hs : splitOnceChar rest c with
      | none => simp [splitOnceChar, hx, hs]
      | some p => simp [splitOnceChar, hx, hs]

theorem splitOnL_singleton (c : Char) (s : RStr) :
    splitOnL [c] s =
      (match splitOnceChar s c with
       | none => [s]
       | some p => p.1 :: splitOnL [c] p.2) := by
  conv_lhs => rw [splitOnL]
  rw [splitGo_singleton c s []]
  cases splitOnceChar s c <;> simp

/-! ## Lemmas about the prober and the coordinator -/

theorem probeGo_spec (ds : List (IpAddr × RStr)) :
    ∀ (seen : List IpAddr) (cands : List (IpAddr × RStr)),
    (∀ ip : IpAddr, ip ∈ seen ↔ ∃ l, (ip, l) ∈ cands) →
    (cands.map Prod.fst).Nodup →
    ((probeGo ds seen cands).map Prod.fst).Nodup ∧
    (∀ (ip : IpAddr) (loc : RStr), (ip, loc) ∈ probeGo ds seen cands ↔
      ((ip, loc) ∈ cands ∨ (ip ∉ seen ∧ firstLoc ds ip = some loc))) := by
  induction ds with
  | nil =>
    intro seen cands hinv hnd
    refine ⟨hnd, ?_⟩
    intro ip loc
    simp [probeGo, firstLoc]
  | cons d rest ih =>
    obtain ⟨i, p⟩ := d
    intro seen cands hinv hnd
    by_cases hi : i ∈ seen
    · have hstep : probeGo ((i, p) :: rest) seen cands = probeGo rest seen cands := by
        simp only [probeGo]
        rw [if_pos hi]
      rw [hstep]
      obtain ⟨h1, h2⟩ := ih seen cands hinv hnd
      refine ⟨h1, ?_⟩
      intro ip loc
      rw [h2 ip loc]
      by_cases hip : ip ∈ seen
      · simp [hip]
      · have hne : ¬ (i = ip) := fun he => hip (he ▸ hi)
        have hfl : firstLoc ((i, p) :: rest) ip = firstLoc rest ip := by
          simp [firstLoc, hne]
        rw [hfl]
    · cases hx : extract_header p (str "LOCATION") with
      | some l =>
        have hstep : probeGo ((i, p) :: rest) seen cands =
            probeGo rest (i :: seen) (cands ++ [(i, l)]) := by
          simp only [probeGo]
          rw [if_neg hi, hx]
        rw [hstep]
        have hnotc : ∀ l', (i, l') ∉ cands := by
          intro l' hmem
          exact hi ((hinv i).mpr ⟨l', hmem⟩)
        have hinv2 : ∀ ip : IpAddr, ip ∈ i :: seen ↔ ∃ l', (ip, l') ∈ cands ++ [(i, l)] := by
          intro ip
          constructor
          · intro hm
            rcases List.mem_cons.mp hm with he | hs
            · exact ⟨l, by simp [he]⟩
            · obtain ⟨l', hl'⟩ := (hinv ip).mp hs
              exact ⟨l', by simp [hl']⟩
          · intro hm
            obtain ⟨l', hl'⟩ := hm
            rcases List.mem_append.mp hl' with hc | hone
            · exact List.mem_cons_of_mem _ ((hinv ip).mpr ⟨l', hc⟩)
            · simp at hone
              simp [hone.1]
        have hnd2 : ((cands ++ [(i, l)]).map Prod.fst).Nodup := by
          rw [List.map_append, List.nodup_append]
          refine ⟨hnd, by simp, ?_⟩
          intro a ha hb
          simp only [List.map_cons, List.map_nil, List.mem_singleton] at hb
          rw [hb] at ha
          obtain ⟨⟨ip', l'⟩, hmem, hfst⟩ := List.mem_map.mp ha
          apply hnotc l'
          have hip' : ip' = i := hfst
          rwa [← hip']
        obtain ⟨h1, h2⟩ := ih (i :: seen) (cands ++ [(i, l)]) hinv2 hnd2
        refine ⟨h1, ?_⟩
        intro ip loc
        rw [h2 ip loc]
        by_cases hip : ip = i
        · subst hip
          have hfl : firstLoc ((ip, p) :: rest) ip = some l := by
            simp [firstLoc, hx]
          constructor
          · rintro (hmem | ⟨habs, _⟩)
            · rcases List.mem_append.mp hmem with hc | hone
              · exact Or.inl hc
              · simp at hone
                exact Or.inr ⟨hi, by rw [hfl, hone]⟩
            · exact absurd (List.mem_cons_self _ _) habs
          · rintro (hc | ⟨_, hfl2⟩)
            · exact Or.inl (List.mem_append.mpr (Or.inl hc))
            · rw [hfl] at hfl2
              have hl := Option.some.inj hfl2
              exact Or.inl (List.mem_append.mpr (Or.inr (by simp [hl])))
        · have hfl : firstLoc ((i, p) :: rest) ip = firstLoc rest ip := by
            have hne : ¬ (i = ip) := fun he => hip he.symm
            simp [firstLoc, hne]
          constructor
          · rintro (hmem | ⟨hnm, hfr⟩)
            · rcases List.mem_append.mp hmem with hc | hone
              · exact Or.inl hc
              · exfalso
                simp at hone
                exact hip hone.1
            · exact Or.inr ⟨fun hs => hnm (List.mem_cons_of_mem _ hs), by rw [hfl]; exact hfr⟩
          · rintro (hc | ⟨hns, hfr⟩)
            · exact Or.inl (List.mem_append.mpr (Or.inl hc))
            · refine Or.inr ⟨?_, by rw [hfl] at hfr; exact hfr⟩
              intro hm
              rcases List.mem_cons.mp hm with he | hs
              · exact hip he
              · exact hns hs
      | none =>
        have hstep : probeGo ((i, p) :: rest) seen cands = probeGo rest seen cands := by
          simp only [probeGo]
          rw [if_neg hi, hx]
        rw [hstep]
        obtain ⟨h1, h2⟩ := ih seen cands hinv hnd
        refine ⟨h1, ?_⟩
        intro ip loc
        rw [h2 ip loc]
        by_cases hip : ip = i
        · subst hip
          have hfl : firstLoc ((ip, p) :: rest) ip = firstLoc rest ip := by
            simp [firstLoc, hx]
          rw [hfl]
        · have hfl : firstLoc ((i, p) :: rest) ip = firstLoc rest ip := by
            have hne : ¬ (i = ip) := fun he => hip he.symm
            simp [firstLoc, hne]
          rw [hfl]
theorem runProbers_ok (envs : List ProbeEnv)
    (h : ∀ e ∈ envs, e.bindOk = true ∧ e.sendOk = true) :
    ∃ cs, runProbers envs = .ok cs := by
  induction envs with
  | nil => exact ⟨[], rfl⟩
  | cons e rest ih =>
    obtain ⟨hb, hs⟩ := h e (List.mem_cons_self _ _)
    obtain ⟨cs, hcs⟩ := ih (fun e' he' => h e' (List.mem_cons_of_mem _ he'))
    refine ⟨probeGo e.datagrams [] [] ++ cs, ?_⟩
    simp [runProbers, discover_candidates_from_iface_addr, hb, hs, hcs, Except.map]

theorem runProbers_error (envs : List ProbeEnv)
    (h : ∃ e ∈ envs, e.bindOk = false ∨ e.sendOk = false) :
    ∃ msg, runProbers envs = .error msg := by
  induction envs with
  | nil => simp at h
  | cons e rest ih =>
    obtain ⟨e', he', hbad⟩ := h
    rcases List.mem_cons.mp he' with rfl | hmem
    · cases hcd : discover_candidates_from_iface_addr e' with
      | error s => exact ⟨s, by simp [runProbers, hcd]⟩
      | ok cs =>
        exfalso
        unfold discover_candidates_from_iface_addr at hcd
        rcases hbad with hb | hs
        · simp [hb] at hcd
        · cases hbv : e'.bindOk <;> simp [hbv, hs] at hcd
    · cases hcd : discover_candidates_from_iface_addr e with
      | error s => exact ⟨s, by simp [runProbers, hcd]⟩
      | ok cs =>
        obtain ⟨msg, hmsg⟩ := ih ⟨e', hmem, hbad⟩
        exact ⟨msg, by simp [runProbers, hcd, hmsg, Except.map]⟩

theorem discover_ok_iff (envs : List ProbeEnv) (net : NetEnv)
    (res : List YamahaDevice) :
    discover_yamaha_devices envs net = .ok res ↔
      ∃ cs, runProbers envs = .ok cs ∧ res = cs.filterMap (resolveCandidate net) := by
  unfold discover_yamaha_devices
  cases hr : runProbers envs with
  | error s => simp [Except.map]
  | ok cs =>
    constructor
    · intro h
      refine ⟨cs, rfl, ?_⟩
      have h2 : Except.ok (cs.filterMap (resolveCandidate net)) =
          (Except.ok res : Except String (List YamahaDevice)) := h
      injection h2 with h2
      exact h2.symm
    · rintro ⟨cs2, hcs2, hres⟩
      injection hcs2 with hcs2
      subst hcs2
      subst hres
      rfl

theorem resolveCandidate_ip (net : NetEnv) (c : IpAddr × RStr)
    (d : YamahaDevice) (h : resolveCandidate net c = some d) : d.ip = c.1 := by
  unfold resolveCandidate at h
  cases hx : extract_device_info net c.2 with
  | none => simp [hx] at h
  | some fm =>
    rw [hx] at h
    by_cases hm : fm.2 = str "Yamaha Corporation"
    · simp [hm] at h
      simp [← h]
    · simp [hm] at h

theorem resolve_ips_sublist (net : NetEnv) (l : List (IpAddr × RStr)) :
    ((l.filterMap (resolveCandidate net)).map YamahaDevice.ip).Sublist
      (l.map Prod.fst) := by
  induction l with
  | nil => simp
  | cons c rest ih =>
    cases hc : resolveCandidate net c with
    | none =>
      rw [List.filterMap_cons_none hc]
      exact ih.cons c.1
    | some d =>
      rw [List.filterMap_cons_some hc]
      rw [List.map_cons, List.map_cons, resolveCandidate_ip net c d hc]
      exact ih.cons₂ c.1

/-! ## The claims -/

/-- C8: within one `discover_candidates_from_iface_addr` run (any sequence
of received datagrams), the returned candidates have pairwise-distinct
source IPs, the candidate recorded for an address carries the LOCATION of
the first datagram from that address that had a recognizable LOCATION
header (first-seen wins), and datagrams from an already-seen source or
without a LOCATION header are discarded silently (the run still returns
normally). -/
theorem C8_prober_first_seen_dedup (env : ProbeEnv)
    (hb : env.bindOk = true) (hs : env.sendOk = true) :
    ∃ res, discover_candidates_from_iface_addr env = .ok res ∧
      (res.map Prod.fst).Nodup ∧
      ∀ (ip : IpAddr) (loc : RStr),
        ((ip, loc) ∈ res ↔ firstLoc env.datagrams ip = some loc) := by
  refine ⟨probeGo env.datagrams [] [], ?_, ?_, ?_⟩
  · unfold discover_candidates_from_iface_addr
    rw [hb, hs]
    rfl
  · exact (probeGo_spec env.datagrams [] [] (by simp) (by simp)).1
  · intro ip loc
    rw [(probeGo_spec env.datagrams [] [] (by simp) (by simp)).2 ip loc]
    simp

/-- C8 witness: the property evaluated on a prober that got two datagrams
from source 1 and a LOCATION-less datagram from source 2. -/
theorem C8_witness :
    ∃ res, discover_candidates_from_iface_addr probeEnvDupDatagrams = .ok res ∧
      (res.map Prod.fst).Nodup ∧
      ∀ (ip : IpAddr) (loc : RStr),
        ((ip, loc) ∈ res ↔ firstLoc probeEnvDupDatagrams.datagrams ip = some loc) :=
  C8_prober_first_seen_dedup probeEnvDupDatagrams rfl rfl

/-- C10: a candidate whose LOCATION URL contains no `://` substring is
rejected by `extract_host_port` inside `extract_device_info`: the result
is `none` and `TcpStream::connect_timeout` is never reached. -/
theorem C10_malformed_url_no_connect (env : NetEnv) (loc : RStr)
    (h : findSub loc (str "://") = none) :
    extract_device_info env loc = none ∧
    (extract_device_info_t env loc).connectAttempted = false := by
  have hhp : extract_host_port loc = none := by
    unfold extract_host_port
    rw [splitOnL_of_none _ _ h]
  have ht : extract_device_info_t env loc = ⟨none, false⟩ := by
    unfold extract_device_info_t
    rw [hhp]
  exact ⟨by unfold extract_device_info; rw [ht], by rw [ht]⟩

/-- C10 witness: a UPnP USN-style location with no protocol separator. -/
theorem C10_witness :
    extract_device_info netW (str "uuid:device-123") = none ∧
    (extract_device_info_t netW (str "uuid:device-123")).connectAttempted = false :=
  C10_malformed_url_no_connect netW (str "uuid:device-123") (by decide)

/-- C1 counterexample: with one healthy interface prober and one prober
whose UDP bind fails, `discover_yamaha_devices` aborts with the re-raised
panic (`Except.error`) instead of returning the healthy interface's
result — yet the healthy interface alone yields a device, so the failing
prober did not merely contribute zero candidates. -/
theorem C1_counterexample :
    discover_yamaha_devices [probeEnvGood, probeEnvBadBind] netW = .error "bind" ∧
    discover_yamaha_devices [probeEnvGood] netW = .ok [⟨1, str "Receiver-A"⟩] := by
  exact ⟨rfl, rfl⟩

/-- C1 amended: a bind or send failure in any prober panics that prober
thread, and the coordinator's `join().unwrap()` (or the direct call on
the single-binding path) re-raises it, so `discover_yamaha_devices`
aborts instead of degrading that interface to zero candidates. -/
theorem C1_amended_failure_is_fatal (envs : List ProbeEnv) (net : NetEnv)
    (h : ∃ e ∈ envs, e.bindOk = false ∨ e.sendOk = false) :
    ∃ msg, discover_yamaha_devices envs net = .error msg := by
  obtain ⟨msg, hmsg⟩ := runProbers_error envs h
  refine ⟨msg, ?_⟩
  unfold discover_yamaha_devices
  rw [hmsg]
  rfl

/-- C1 amended witness: the amended claim at the concrete two-interface
environment of the counterexample. -/
theorem C1_amended_witness :
    ∃ msg, discover_yamaha_devices [probeEnvGood, probeEnvBadBind] netW = .error msg :=
  C1_amended_failure_is_fatal [probeEnvGood, probeEnvBadBind] netW
    ⟨probeEnvBadBind, List.mem_cons_of_mem _ (List.mem_cons_self _ _), Or.inl rfl⟩

/-- C2 counterexample: two probers that both observe the device at
address 1 produce two candidates, and the final device list contains the
address twice — candidate sets are not deduplicated across probers. -/
theorem C2_counterexample :
    discover_yamaha_devices [probeEnvGood, probeEnvGood] netW =
      .ok [⟨1, str "Receiver-A"⟩, ⟨1, str "Receiver-A"⟩] ∧
    ¬ (([(⟨1, str "Receiver-A"⟩ : YamahaDevice),
        ⟨1, str "Receiver-A"⟩].map YamahaDevice.ip).Nodup) := by
  exact ⟨rfl, by decide⟩

/-- C2 amended: deduplication by source address happens only inside a
single prober; the coordinator concatenates prober outputs without
cross-prober dedup, so duplicates are only excluded when a single prober
runs (the non-Windows path), in which case the final list has at most
one entry per source address. -/
theorem C2_amended_single_prober_nodup (env : ProbeEnv) (net : NetEnv)
    (res : List YamahaDevice)
    (h : discover_yamaha_devices [env] net = .ok res) :
    (res.map YamahaDevice.ip).Nodup := by
  obtain ⟨cs, hcs, hres⟩ := (discover_ok_iff [env] net res).mp h
  have hcseq : cs = probeGo env.datagrams [] [] := by
    unfold runProbers at hcs
    cases hcd : discover_candidates_from_iface_addr env with
    | error s =>
      rw [hcd] at hcs
      exact absurd hcs (by simp)
    | ok cs0 =>
      rw [hcd] at hcs
      have hcs0 : cs0 = probeGo env.datagrams [] [] := by
        unfold discover_candidates_from_iface_addr at hcd
        cases hbv : env.bindOk with
        | false => rw [hbv] at hcd; simp at hcd
        | true =>
          cases hsv : env.sendOk with
          | false => rw [hbv, hsv] at hcd; simp at hcd
          | true =>
            rw [hbv, hsv] at hcd
            simp at hcd
            exact hcd.symm
      have hmap : (Except.ok ([] : List (IpAddr × RStr))).map
          (fun others => cs0 ++ others) = .ok cs := hcs
      have : cs0 ++ [] = cs := by
        injection hmap
      rw [← this, hcs0]
      simp
  have hnd : ((probeGo env.datagrams [] []).map Prod.fst).Nodup :=
    (probeGo_spec env.datagrams [] [] (by simp) (by simp)).1
  subst hres
  rw [hcseq]
  exact ((resolve_ips_sublist net (probeGo env.datagrams [] [])).nodup) hnd

/-- C2 amended witness: the amended claim at the single healthy prober. -/
theorem C2_amended_witness :
    (([(⟨1, str "Receiver-A"⟩ : YamahaDevice)]).map YamahaDevice.ip).Nodup :=
  C2_amended_single_prober_nodup probeEnvGood netW [⟨1, str "Receiver-A"⟩] rfl

/-- C3 counterexample: `extract_device_info` finds `friendlyName` in the
header section of the HTTP payload (before the first blank line) even
though the body after the blank line contains no `friendlyName` tag at
all — tag text before the first blank line IS used, and no body-start
location is performed. -/
theorem C3_counterexample :
    extract_device_info netHeaderTag (str "http://dev/d.xml") =
      some (str "HeaderName", str "Yamaha Corporation") ∧
    findSub (bodyText_spec payloadHeaderTag) (str "<friendlyName>") = none := by
  exact ⟨rfl, rfl⟩

/-- C3 amended: the `friendlyName` and `manufacturer` tags are extracted
from the entire fetched payload (header section included); no body-start
(first blank line) detection is performed. -/
theorem C3_amended_whole_payload_extraction (env : NetEnv) (loc addr data : RStr)
    (h1 : extract_host_port loc = some addr)
    (h2 : env.parseOk addr = true)
    (h3 : env.connectOk addr = true)
    (h4 : env.writeOk addr = true)
    (h5 : env.readData addr ((extract_path loc).getD (str "/")) = some data) :
    extract_device_info env loc =
      (extract_xml data (str "friendlyName")).bind (fun f =>
        (extract_xml data (str "manufacturer")).map (fun m => (f, m))) := by
  unfold extract_device_info extract_device_info_t
  rw [h1]
  simp only [h2, h3, h4, if_true]
  rw [h5]
  cases hf : extract_xml data (str "friendlyName") with
  | none => simp [hf]
  | some f =>
    cases hm : extract_xml data (str "manufacturer") with
    | none => simp [hf, hm]
    | some m => simp [hf, hm]

/-- C3 amended witness: the amended claim evaluated at the payload whose
`friendlyName` sits in the header section. -/
theorem C3_amended_witness :
    extract_device_info netHeaderTag (str "http://dev/d.xml") =
      (extract_xml payloadHeaderTag (str "friendlyName")).bind (fun f =>
        (extract_xml payloadHeaderTag (str "manufacturer")).map (fun m => (f, m))) :=
  C3_amended_whole_payload_extraction netHeaderTag (str "http://dev/d.xml") (str "dev")
    payloadHeaderTag rfl rfl rfl rfl rfl

/-- C4: every entry of an `.ok` result of `discover_yamaha_devices`
originates from a candidate whose resolved description document has
manufacturer exactly (case-sensitively, full-string) equal to
`"Yamaha Corporation"`; and a candidate resolving to manufacturer
`"Other Corp"` is mapped to no device by the resolve worker, whatever its
friendlyName. -/
theorem C4_manufacturer_exact_match :
    (∀ (envs : List ProbeEnv) (net : NetEnv) (res : List YamahaDevice),
      discover_yamaha_devices envs net = .ok res →
      ∀ d ∈ res, ∃ cands ip loc friendly, runProbers envs = .ok cands ∧
        (ip, loc) ∈ cands ∧
        extract_device_info net loc = some (friendly, str "Yamaha Corporation") ∧
        d = ⟨ip, friendly⟩) ∧
    (∀ (net : NetEnv) (ip : IpAddr) (loc friendly : RStr),
      extract_device_info net loc = some (friendly, str "Other Corp") →
      resolveCandidate net (ip, loc) = none) := by
  constructor
  · intro envs net res h d hd
    obtain ⟨cs, hcs, hres⟩ := (discover_ok_iff envs net res).mp h
    subst hres
    obtain ⟨c, hc, hrc⟩ := List.mem_filterMap.mp hd
    unfold resolveCandidate at hrc
    cases hx : extract_device_info net c.2 with
    | none =>
      rw [hx] at hrc
      exact absurd hrc (by simp)
    | some fm =>
      rw [hx] at hrc
      have hrc2 : (if fm.2 = str "Yamaha Corporation"
          then some (⟨c.1, fm.1⟩ : YamahaDevice) else none) = some d := hrc
      by_cases hm : fm.2 = str "Yamaha Corporation"
      · rw [if_pos hm] at hrc2
        have hd2 : d = ⟨c.1, fm.1⟩ := (Option.some.inj hrc2).symm
        refine ⟨cs, c.1, c.2, fm.1, hcs, by simpa using hc, ?_, hd2⟩
        rw [← hm]
        simpa using hx
      · rw [if_neg hm] at hrc2
        exact absurd hrc2 (by simp)
  · intro net ip loc friendly h
    have hstep : resolveCandidate net (ip, loc) =
        (if (str "Other Corp") = str "Yamaha Corporation"
         then some (⟨ip, friendly⟩ : YamahaDevice) else none) := by
      unfold resolveCandidate
      rw [show extract_device_info net (ip, loc).2 =
            some (friendly, str "Other Corp") from h]
    rw [hstep, if_neg (by decide)]

/-- C4 witness: the property at a healthy Yamaha responder and at an
`"Other Corp"` responder with a well-formed friendlyName. -/
theorem C4_witness :
    (∃ cands ip loc friendly,
      runProbers [probeEnvGood] = .ok cands ∧
      (ip, loc) ∈ cands ∧
      extract_device_info netW loc = some (friendly, str "Yamaha Corporation") ∧
      (⟨1, str "Receiver-A"⟩ : YamahaDevice) = ⟨ip, friendly⟩) ∧
    resolveCandidate netOther (5, str "http://dev/d.xml") = none :=
  ⟨C4_manufacturer_exact_match.1 [probeEnvGood] netW [⟨1, str "Receiver-A"⟩] rfl
      ⟨1, str "Receiver-A"⟩ (List.mem_cons_self _ _),
   C4_manufacturer_exact_match.2 netOther 5 (str "http://dev/d.xml")
      (str "WellFormedName") rfl⟩

/-- C5: a failed connect, write, or read, or a missing `friendlyName` or
`manufacturer` tag, makes `extract_device_info` return `none` (an
`Option`, not an error); a candidate resolving to `none` contributes no
device while the surrounding candidates are resolved unchanged; and with
healthy probers the whole run returns `.ok` whatever the resolve
outcomes. -/
theorem C5_resolution_failure_silent :
    (∀ (env : NetEnv) (loc addr : RStr),
      extract_host_port loc = some addr → env.parseOk addr = true →
      (env.connectOk addr = false ∨ env.writeOk addr = false ∨
       env.readData addr ((extract_path loc).getD (str "/")) = none ∨
       (∀ data, env.readData addr ((extract_path loc).getD (str "/")) = some data →
         extract_xml data (str "friendlyName") = none ∨
         extract_xml data (str "manufacturer") = none)) →
      extract_device_info env loc = none) ∧
    (∀ (net : NetEnv) (pre post : List (IpAddr × RStr)) (c : IpAddr × RStr),
      extract_device_info net c.2 = none →
      (pre ++ c :: post).filterMap (resolveCandidate net) =
        pre.filterMap (resolveCandidate net) ++ post.filterMap (resolveCandidate net)) ∧
    (∀ (envs : List ProbeEnv) (net : NetEnv),
      (∀ e ∈ envs, e.bindOk = true ∧ e.sendOk = true) →
      ∃ res, discover_yamaha_devices envs net = .ok res) := by
  refine ⟨?_, ?_, ?_⟩
  · intro env loc addr h1 h2 h3
    cases hcv : env.connectOk addr with
    | false => simp [extract_device_info, extract_device_info_t, h1, h2, hcv]
    | true =>
      cases hwv : env.writeOk addr with
      | false => simp [extract_device_info, extract_device_info_t, h1, h2, hcv, hwv]
      | true =>
        cases hrv : env.readData addr ((extract_path loc).getD (str "/")) with
        | none => simp [extract_device_info, extract_device_info_t, h1, h2, hcv, hwv, hrv]
        | some data =>
          rcases h3 with hc | hw | hr | ht
          · rw [hcv] at hc
            exact absurd hc (by simp)
          · rw [hwv] at hw
            exact absurd hw (by simp)
          · rw [hrv] at hr
            exact absurd hr (by simp)
          · rcases ht data hrv with hf | hm
            · simp [extract_device_info, extract_device_info_t, h1, h2, hcv, hwv, hrv, hf]
            · cases hf2 : extract_xml data (str "friendlyName") with
              | none =>
                simp [extract_device_info, extract_device_info_t, h1, h2, hcv, hwv, hrv, hf2]
              | some f =>
                simp [extract_device_info, extract_device_info_t, h1, h2, hcv, hwv, hrv,
                  hf2, hm]
  · intro net pre post c h
    have hc : resolveCandidate net c = none := by
      unfold resolveCandidate
      rw [h]
    rw [List.filterMap_append, List.filterMap_cons_none hc]
  · intro envs net h
    obtain ⟨cs, hcs⟩ := runProbers_ok envs h
    refine ⟨cs.filterMap (resolveCandidate net), ?_⟩
    unfold discover_yamaha_devices
    rw [hcs]
    rfl

/-- C5 witness: the three parts at a network where host `closed` refuses
connections: the closed candidate resolves to nothing, the resolve phase
of the surrounding candidates is unchanged, and the run returns `.ok`. -/
theorem C5_witness :
    extract_device_info netMixed (str "http://closed/d.xml") = none ∧
    (([(1, str "http://dev/d.xml")] ++ (9, str "http://closed/d.xml") ::
        [(2, str "http://dev/d.xml")]).filterMap (resolveCandidate netMixed) =
      [(1, str "http://dev/d.xml")].filterMap (resolveCandidate netMixed) ++
      [(2, str "http://dev/d.xml")].filterMap (resolveCandidate netMixed)) ∧
    (∃ res, discover_yamaha_devices [probeEnvGood] netMixed = .ok res) :=
  ⟨C5_resolution_failure_silent.1 netMixed (str "http://closed/d.xml") (str "closed")
      rfl rfl (Or.inl rfl),
   C5_resolution_failure_silent.2.1 netMixed [(1, str "http://dev/d.xml")]
      [(2, str "http://dev/d.xml")] (9, str "http://closed/d.xml") rfl,
   C5_resolution_failure_silent.2.2 [probeEnvGood] netMixed
      (by
        intro e he
        rw [List.mem_singleton] at he
        subst he
        exact ⟨rfl, rfl⟩)⟩

/-- C6 counterexample: `extract_header` matches by prefix, not equality:
`"locationx: foo"` contains no line `X: value` with `X` equal to
`location` in any casing, yet the header is extracted from it; and in
`"locations: zzz\nlocation: val"` the value returned comes from the
prefix-matching first line (`"zzz"`), not from the exactly-matching
line (`"val"`). -/
theorem C6_counterexample :
    extract_header (str "locationx: foo") (str "location") = some (str "foo") ∧
    extract_header (str "locations: zzz\nlocation: val") (str "location") =
      some (str "zzz") :=
  ⟨rfl, rfl⟩

/-- C6 amended: a line matches when, after trimming, its lowercase form
starts with the lowercase header name and the line contains a colon;
`extract_header` returns the text after the first colon of the first
such line, trimmed, and returns nothing when no line matches. -/
theorem C6_amended_header_scan (resp header : RStr) :
    extract_header resp header =
      ((rustLines resp).find? (headerLineMatch (lowerStr header))).bind
        (fun line => (splitOnceChar (rustTrim line) ':').map (fun p => rustTrim p.2)) := by
  unfold extract_header
  generalize rustLines resp = ls
  induction ls with
  | nil => rfl
  | cons line rest ih =>
    by_cases hp : (lowerStr header).isPrefixOf (lowerStr (rustTrim line))
    · cases hcv : splitOnceChar (rustTrim line) ':' with
      | some v =>
        have hm : headerLineMatch (lowerStr header) line = true := by
          simp [headerLineMatch, hp, hcv]
        simp only [extractHeaderGo]
        rw [if_pos hp, hcv, List.find?_cons_of_pos _ hm]
        simp [hcv]
      | none =>
        have hm : headerLineMatch (lowerStr header) line = false := by
          simp [headerLineMatch, hcv]
        simp only [extractHeaderGo]
        rw [if_pos hp, hcv, List.find?_cons_of_neg _ (by simp [hm])]
        exact ih
    · have hm : headerLineMatch (lowerStr header) line = false := by
        simp [headerLineMatch, hp]
      simp only [extractHeaderGo]
      rw [if_neg hp, List.find?_cons_of_neg _ (by simp [hm])]
      exact ih

/-- C7 counterexample: for a URL whose text after the first `://`
contains a second `://`, the code takes only the segment between the two
occurrences (`split("://").nth(1)`), so the path it computes differs
from the claim's "everything that followed the first `/` of the
remainder after the first `://`". -/
theorem C7_counterexample :
    extract_path (str "http://a/b://c") = some (str "/b") ∧
    (splitLocationURL_spec (str "http://a/b://c")).map Prod.snd =
      some (str "/b://c") ∧
    ¬ (str "/b" = str "/b://c") :=
  ⟨rfl, rfl, by decide⟩

/-- C7 amended: when the text after the first `://` contains no further
`://`, the code splits exactly as the claim describes: host:port is the
remainder up to its first `/`, the path is `/` plus what followed (bare
`/` when nothing followed). -/
theorem C7_amended_split (url pre rem : RStr)
    (h1 : splitOnceSub url (str "://") = some (pre, rem))
    (h2 : findSub rem (str "://") = none) :
    extract_host_port url = (splitLocationURL_spec url).map Prod.fst ∧
    extract_path url = (splitLocationURL_spec url).map Prod.snd := by
  obtain ⟨i, hfi, hpre, hrem⟩ : ∃ i, findSub url (str "://") = some i ∧
      pre = url.take i ∧ rem = url.drop (i + (str "://").length) := by
    unfold splitOnceSub at h1
    cases hf : findSub url (str "://") with
    | none =>
      rw [hf] at h1
      exact absurd h1 (by simp)
    | some i =>
      rw [hf] at h1
      simp at h1
      exact ⟨i, rfl, h1.1.symm, h1.2.symm⟩
  have hsplit : splitOnL (str "://") url = [pre, rem] := by
    rw [splitOnL_of_some (str "://") url i (by decide) hfi]
    rw [← hpre, ← hrem, splitOnL_of_none _ _ h2]
  have hspec : splitLocationURL_spec url =
      (match splitOnceChar rem '/' with
       | none => some (rem, str "/")
       | some ht => some (ht.1, '/' :: ht.2)) := by
    unfold splitLocationURL_spec
    rw [h1]
  constructor
  · unfold extract_host_port
    rw [hsplit, hspec]
    show (splitOnL (str "/") rem).head? = Option.map Prod.fst
        (match splitOnceChar rem '/' with
         | none => some (rem, str "/")
         | some ht => some (ht.1, '/' :: ht.2))
    rw [show str "/" = ['/'] from rfl, splitOnL_singleton]
    cases hsc : splitOnceChar rem '/' with
    | none => rfl
    | some ht => rfl
  · unfold extract_path
    rw [hsplit, hspec]
    show some (match splitOnceChar rem '/' with
         | some p => '/' :: p.2
         | none => str "/") = Option.map Prod.snd
        (match splitOnceChar rem '/' with
         | none => some (rem, str "/")
         | some ht => some (ht.1, '/' :: ht.2))
    cases hsc : splitOnceChar rem '/' with
    | none => rfl
    | some ht => rfl

/-- C7 amended witness: the amended claim at the claim's own example
URL. -/
theorem C7_witness :
    extract_host_port (str "http://10.0.0.5:49154/desc.xml") =
      (splitLocationURL_spec (str "http://10.0.0.5:49154/desc.xml")).map Prod.fst ∧
    extract_path (str "http://10.0.0.5:49154/desc.xml") =
      (splitLocationURL_spec (str "http://10.0.0.5:49154/desc.xml")).map Prod.snd :=
  C7_amended_split (str "http://10.0.0.5:49154/desc.xml") (str "http")
    (str "10.0.0.5:49154/desc.xml") (by decide) (by decide)
